import Mathlib

/-!
Verification of the Rain VM (src/vm.rs, src/version.rs): a shallow
embedding of the bytecode interpreter and proofs about its behavior.
Bytes are modelled as `Nat` (values below 256 in actual inputs);
32-bit arithmetic is explicit `% 2 ^ 32`. The possibly non-terminating
interpreter loop is given a fuel parameter: `none` means the fuel ran
out, `some r` is the result the Rust loop produces.
-/

/-- Execution errors, mirroring `ExecutionError` in src/vm.rs.
The file-open variant is boundary-level I/O and is not modelled. -/
inductive ExecutionError : Type where
  | MissingVersion : ExecutionError
  | VersionMismatch : Nat → ExecutionError
  | UnexpectedEndOfProgram : ExecutionError
  | NoResult : ExecutionError
  | TruncatedU32 : ExecutionError
  | NoSuchInstruction : Nat → ExecutionError
  | NoSuchRegister : Nat → ExecutionError
  | NowhereToJump : Nat → ExecutionError
  deriving DecidableEq, Repr

/-- The current byte version (src/version.rs). -/
def BYTE_VERSION : Nat := 1

/-- Register file: `File(HashMap<Reg, u32>)` from src/vm.rs, modelled as
an association list where `insert` prepends and `get` returns the most
recent binding, matching the observable behavior of the hash map. -/
abbrev File : Type := List (Nat × Nat)

/-- `File::get`: the stored word for register `r`, if present. -/
def File.get (f : File) (r : Nat) : Option Nat :=
  (List.find? (fun p => p.1 == r) f).map (fun p => p.2)

/-- `File::insert`: unconditionally bind register `r` to word `w`. -/
def File.insert (f : File) (r : Nat) (w : Nat) : File :=
  (r, w) :: f

/-- The fresh register file `Machine::new` starts from. -/
def File.empty : File := []

/-- `must_next`: the next byte of the stream at `pos`, or
unexpected-end-of-program; also returns the advanced position. -/
def must_next (v : List Nat) (pos : Nat) : Except ExecutionError (Nat × Nat) :=
  match v[pos]? with
  | none => Except.error ExecutionError.UnexpectedEndOfProgram
  | some b => Except.ok (b, pos + 1)

/-- The loop body of `decode_u32`, folding `n` further bytes into the
accumulator `u` by `u <<= 8; u |= byte`. -/
def decodeBytes (v : List Nat) (u : Nat) (pos : Nat) : Nat → Except ExecutionError (Nat × Nat)
  | 0 => Except.ok (u, pos)
  | n + 1 =>
    match v[pos]? with
    | none => Except.error ExecutionError.TruncatedU32
    | some b => decodeBytes v ((u <<< 8) ||| b) (pos + 1) n

/-- `decode_u32`: big-endian decoding of a 32-bit word from the next
4 bytes, failing with truncated-u32 when fewer are available. -/
def decode_u32 (v : List Nat) (pos : Nat) : Except ExecutionError (Nat × Nat) :=
  decodeBytes v 0 pos 4

/-- Shifts 3 bits (const `SHIFT_OPCODE`). -/
def SHIFT_OPCODE : Nat := 3

/-- Const `REGISTER_WIDTH`, the 5-bit register-id mask. -/
def REGISTER_WIDTH : Nat := 0b11111

/-- Const `OPCODE_MOVE`. -/
def OPCODE_MOVE : Nat := 0

/-- Const `OPCODE_HALT`. -/
def OPCODE_HALT : Nat := 1

/-- Const `OPCODE_ADD`. -/
def OPCODE_ADD : Nat := 2

/-- Const `OPCODE_BNZ`. -/
def OPCODE_BNZ : Nat := 3

/-- `Machine::get`: the word in register `r`, or the
no-such-register error carrying `r`. -/
def Machine.get (file : File) (r : Nat) : Except ExecutionError Nat :=
  match File.get file r with
  | none => Except.error (ExecutionError.NoSuchRegister r)
  | some w => Except.ok w

/-- `Machine::mov_reg`: the two-byte register-to-register move; the
source id combines `extra_bits` (low 2 bits of the descriptor) with the
top 3 bits of the operand byte. -/
def Machine.mov_reg (v : List Nat) (file : File) (pos : Nat) (extra_bits : Nat) :
    Except ExecutionError (File × Nat) := do
  let bp ← must_next v pos
  let b := bp.1
  let lower := b >>> 5
  let upper := extra_bits <<< 3
  let src := lower ||| upper
  let w ← Machine.get file src
  Except.ok (File.insert file (b &&& 0b11111) w, bp.2)

/-- `Machine::mov_imm`: move-immediate; the operand byte's low 5 bits
name the destination, then a 32-bit word follows. -/
def Machine.mov_imm (v : List Nat) (file : File) (pos : Nat) :
    Except ExecutionError (File × Nat) := do
  let bp ← must_next v pos
  let b := bp.1 &&& 0b11111
  let wp ← decode_u32 v bp.2
  Except.ok (File.insert file b wp.1, wp.2)

/-- `Machine::add_reg`: register-register add; overflow wraps mod 2^32;
the destination is the top 5 bits of the third byte. -/
def Machine.add_reg (v : List Nat) (file : File) (pos : Nat) (extra_bits : Nat) :
    Except ExecutionError (File × Nat) := do
  let bp ← must_next v pos
  let b := bp.1
  let lower := b >>> 5
  let upper := extra_bits <<< 3
  let src1 := lower ||| upper
  let src2 := b &&& 0b11111
  let dp ← must_next v bp.2
  let dest := dp.1 >>> 3
  let v1 ← Machine.get file src1
  let v2 ← Machine.get file src2
  Except.ok (File.insert file dest ((v1 + v2) % 2 ^ 32), dp.2)

/-- `Machine::add_imm`: register-immediate add; overflow wraps mod 2^32. -/
def Machine.add_imm (v : List Nat) (file : File) (pos : Nat) (extra_bits : Nat) :
    Except ExecutionError (File × Nat) := do
  let bp ← must_next v pos
  let b := bp.1
  let lower := b >>> 5
  let upper := extra_bits <<< 3
  let src := lower ||| upper
  let wp ← decode_u32 v bp.2
  let w ← Machine.get file src
  Except.ok (File.insert file (b &&& 0b11111) ((w + wp.1) % 2 ^ 32), wp.2)

/-- `Machine::bnz`: read the test register, then always decode the
4-byte jump target; `some target` when the tested value is nonzero,
`none` (fall through) when it is zero. Also returns the position just
past the instruction. -/
def Machine.bnz (v : List Nat) (file : File) (pos : Nat) :
    Except ExecutionError (Option Nat × Nat) := do
  let bp ← must_next v pos
  let r := bp.1 &&& REGISTER_WIDTH
  let w ← Machine.get file r
  let tp ← decode_u32 v bp.2
  if w == 0 then Except.ok (none, tp.2) else Except.ok (some tp.1, tp.2)

/-- The fetch-dispatch `loop` of `Machine::execute_bytes`, with fuel:
`none` when the fuel runs out, otherwise `some` of the Rust outcome
(the final register file on HALT, or the error). -/
def Machine.execLoop (v : List Nat) : Nat → File → Nat → Option (Except ExecutionError File)
  | 0, _, _ => none
  | fuel + 1, file, pos =>
    match v[pos]? with
    | none => some (Except.error ExecutionError.UnexpectedEndOfProgram)
    | some b =>
      if b >>> SHIFT_OPCODE = OPCODE_MOVE then
        if b &&& 0b100 = 0 then
          match Machine.mov_reg v file (pos + 1) (b &&& 0b11) with
          | Except.error e => some (Except.error e)
          | Except.ok fp => Machine.execLoop v fuel fp.1 fp.2
        else
          match Machine.mov_imm v file (pos + 1) with
          | Except.error e => some (Except.error e)
          | Except.ok fp => Machine.execLoop v fuel fp.1 fp.2
      else if b >>> SHIFT_OPCODE = OPCODE_HALT then some (Except.ok file)
      else if b >>> SHIFT_OPCODE = OPCODE_ADD then
        if b &&& 0b100 = 0 then
          match Machine.add_reg v file (pos + 1) (b &&& 0b11) with
          | Except.error e => some (Except.error e)
          | Except.ok fp => Machine.execLoop v fuel fp.1 fp.2
        else
          match Machine.add_imm v file (pos + 1) (b &&& 0b11) with
          | Except.error e => some (Except.error e)
          | Except.ok fp => Machine.execLoop v fuel fp.1 fp.2
      else if b >>> SHIFT_OPCODE = OPCODE_BNZ then
        match Machine.bnz v file (pos + 1) with
        | Except.error e => some (Except.error e)
        | Except.ok op =>
          match op.1 with
          | none => Machine.execLoop v fuel file op.2
          | some w =>
            if v.length ≤ w then some (Except.error (ExecutionError.NowhereToJump w))
            else Machine.execLoop v fuel file w
      else some (Except.error (ExecutionError.NoSuchInstruction (b >>> SHIFT_OPCODE)))

/-- `Machine::execute_bytes`: the version gate, then the dispatch loop
from position 1 on a fresh register file. -/
def Machine.execute_bytes (v : List Nat) (fuel : Nat) : Option (Except ExecutionError File) :=
  match v[0]? with
  | none => some (Except.error ExecutionError.MissingVersion)
  | some b =>
    if b ≠ BYTE_VERSION then some (Except.error (ExecutionError.VersionMismatch b))
    else Machine.execLoop v fuel File.empty 1

/-- Top-level `execute_bytes`: run the machine, then read register 0,
turning its absence into the no-result error. -/
def execute_bytes (v : List Nat) (fuel : Nat) : Option (Except ExecutionError Nat) :=
  match Machine.execute_bytes v fuel with
  | none => none
  | some (Except.error e) => some (Except.error e)
  | some (Except.ok file) =>
    match Machine.get file 0 with
    | Except.error _ => some (Except.error ExecutionError.NoResult)
    | Except.ok w => some (Except.ok w)

/-! ### Helper lemmas -/

/-- Shifting the accumulator left by one byte and or-ing in a value
below 256 is multiplication by 256 plus that value. -/
theorem shiftLeft_eight_lor (u b : Nat) (hb : b < 256) :
    (u <<< 8) ||| b = u * 256 + b := by
  have h256 : (256 : Nat) = 2 ^ 8 := by norm_num
  apply Nat.eq_of_testBit_eq
  intro j
  have hmul : u * 256 + b = 2 ^ 8 * u + b := by ring_nf
  rw [hmul, Nat.testBit_mul_pow_two_add u (h256 ▸ hb) j]
  rcases Nat.lt_or_ge j 8 with hj | hj
  · simp [hj, Nat.testBit_shiftLeft, Nat.not_le.mpr hj]
  · have hbj : b.testBit j = false := Nat.testBit_lt_two_pow (by
      calc b < 256 := hb
      _ = 2 ^ 8 := h256
      _ ≤ 2 ^ j := Nat.pow_le_pow_right (by norm_num) hj)
    simp [Nat.testBit_shiftLeft, hj, hbj, Nat.not_lt.mpr hj]

/-- One step of the `decode_u32` loop when a byte is available. -/
theorem decodeBytes_step (v : List Nat) (u pos b n : Nat) (h : v[pos]? = some b) :
    decodeBytes v u pos (n + 1) = decodeBytes v ((u <<< 8) ||| b) (pos + 1) n := by
  simp [decodeBytes, h]

/-- The `decode_u32` loop with no steps left returns the accumulator. -/
theorem decodeBytes_zero (v : List Nat) (u pos : Nat) :
    decodeBytes v u pos 0 = Except.ok (u, pos) := rfl

/-- The `decode_u32` loop fails with truncated-u32 when the remaining
bytes cannot cover the requested count. -/
theorem decodeBytes_trunc (v : List Nat) :
    ∀ n u pos, 0 < n → v.length < pos + n →
      decodeBytes v u pos n = Except.error ExecutionError.TruncatedU32 := by
  intro n
  induction n with
  | zero => intro u pos h _; exact absurd h (lt_irrefl 0)
  | succ n ih =>
    intro u pos _ hlen
    rcases Nat.lt_or_ge pos v.length with hpos | hpos
    · obtain ⟨b, hb⟩ : ∃ b, v[pos]? = some b := ⟨v[pos], List.getElem?_eq_getElem hpos⟩
      rw [decodeBytes_step v u pos b n hb]
      exact ih _ _ (by omega) (by omega)
    · have hnone : v[pos]? = none := List.getElem?_eq_none hpos
      simp [decodeBytes, hnone]

/-- C2: decoding a 32-bit word consumes exactly 4 bytes and yields the
big-endian value of those bytes; any position with fewer than 4 bytes
remaining fails with truncated-word regardless of content. -/
theorem decode_u32_correct :
    (∀ v pos b0 b1 b2 b3, v[pos]? = some b0 → v[pos + 1]? = some b1 →
      v[pos + 2]? = some b2 → v[pos + 3]? = some b3 →
      b0 < 256 → b1 < 256 → b2 < 256 → b3 < 256 →
      decode_u32 v pos =
        Except.ok (b0 * 2 ^ 24 + b1 * 2 ^ 16 + b2 * 2 ^ 8 + b3, pos + 4)) ∧
    (∀ v pos, v.length < pos + 4 →
      decode_u32 v pos = Except.error ExecutionError.TruncatedU32) := by
  constructor
  · intro v pos b0 b1 b2 b3 h0 h1 h2 h3 hb0 hb1 hb2 hb3
    rw [decode_u32]
    rw [show (4 : Nat) = 3 + 1 from rfl, decodeBytes_step v 0 pos b0 3 h0]
    rw [show (3 : Nat) = 2 + 1 from rfl, decodeBytes_step v _ (pos + 1) b1 2 h1]
    rw [show (2 : Nat) = 1 + 1 from rfl, decodeBytes_step v _ (pos + 1 + 1) b2 1 h2]
    rw [show (1 : Nat) = 0 + 1 from rfl, decodeBytes_step v _ (pos + 1 + 1 + 1) b3 0 h3]
    rw [decodeBytes_zero]
    have e0 : (0 : Nat) <<< 8 ||| b0 = b0 := by
      rw [shiftLeft_eight_lor 0 b0 hb0]; omega
    rw [e0, shiftLeft_eight_lor _ b1 hb1, shiftLeft_eight_lor _ b2 hb2,
      shiftLeft_eight_lor _ b3 hb3]
    have hval : ((b0 * 256 + b1) * 256 + b2) * 256 + b3
        = b0 * 2 ^ 24 + b1 * 2 ^ 16 + b2 * 2 ^ 8 + b3 := by ring
    rw [hval]
  · intro v pos hlen
    exact decodeBytes_trunc v 4 0 pos (by omega) hlen

/-- Witness for C2 at the spec's concrete vectors. -/
theorem decode_u32_correct_witness :
    decode_u32 [1, 0, 18, 1] 0 = Except.ok (16781825, 4) ∧
    decode_u32 [7, 7, 7] 0 = Except.error ExecutionError.TruncatedU32 := by
  constructor
  · have h := decode_u32_correct.1 [1, 0, 18, 1] 0 1 0 18 1 rfl rfl rfl rfl
      (by norm_num) (by norm_num) (by norm_num) (by norm_num)
    rw [h]; norm_num
  · exact decode_u32_correct.2 [7, 7, 7] 0 (by norm_num)

/-- C6: the version gate: an empty buffer fails with missing-version; a
first byte other than 1 fails with version-mismatch carrying that byte;
the single-byte buffer `[1]` passes the gate but fails with
unexpected-end-of-program since no opcode byte follows. -/
theorem version_gate_correct :
    (∀ fuel, execute_bytes [] fuel = some (Except.error ExecutionError.MissingVersion)) ∧
    (∀ b rest fuel, b ≠ 1 → execute_bytes (b :: rest) fuel =
      some (Except.error (ExecutionError.VersionMismatch b))) ∧
    (∀ fuel, execute_bytes [1] (fuel + 1) =
      some (Except.error ExecutionError.UnexpectedEndOfProgram)) := by
  refine ⟨fun fuel => ?_, fun b rest fuel hb => ?_, fun fuel => ?_⟩
  · simp [execute_bytes, Machine.execute_bytes]
  · simp [execute_bytes, Machine.execute_bytes, BYTE_VERSION, hb]
  · simp [execute_bytes, Machine.execute_bytes, Machine.execLoop, BYTE_VERSION]

/-- Witness for C6 at a mismatching version byte. -/
theorem version_gate_correct_witness :
    execute_bytes [2] 5 = some (Except.error (ExecutionError.VersionMismatch 2)) :=
  version_gate_correct.2.1 2 [] 5 (by decide)

/-- C7: reading a register never written fails with no-such-register
carrying its id — at the register file itself and via the MOVE source,
ADD operand and BNZ test paths — while a register written with zero
reads back as zero: absence is observably distinct from a stored 0. -/
theorem register_absence :
    (∀ file r, File.get file r = none →
      Machine.get file r = Except.error (ExecutionError.NoSuchRegister r)) ∧
    (∀ file r, Machine.get (File.insert file r 0) r = Except.ok 0) ∧
    (∀ v file pos b extra, v[pos]? = some b →
      File.get file ((b >>> 5) ||| (extra <<< 3)) = none →
      Machine.mov_reg v file pos extra =
        Except.error (ExecutionError.NoSuchRegister ((b >>> 5) ||| (extra <<< 3)))) ∧
    (∀ v file pos b d extra, v[pos]? = some b → v[pos + 1]? = some d →
      File.get file ((b >>> 5) ||| (extra <<< 3)) = none →
      Machine.add_reg v file pos extra =
        Except.error (ExecutionError.NoSuchRegister ((b >>> 5) ||| (extra <<< 3)))) ∧
    (∀ v file pos b, v[pos]? = some b →
      File.get file (b &&& REGISTER_WIDTH) = none →
      Machine.bnz v file pos =
        Except.error (ExecutionError.NoSuchRegister (b &&& REGISTER_WIDTH))) := by
  refine ⟨fun file r h => ?_, fun file r => ?_,
    fun v file pos b extra hb h => ?_,
    fun v file pos b d extra hb hd h => ?_,
    fun v file pos b hb h => ?_⟩
  · simp [Machine.get, h]
  · simp [Machine.get, File.get, File.insert]
  · simp [Machine.mov_reg, must_next, hb, Machine.get, h, Except.bind, Except.instMonad]
  · simp [Machine.add_reg, must_next, hb, hd, Machine.get, h, Except.bind, Except.instMonad]
  · simp [Machine.bnz, must_next, hb, Machine.get, h, Except.bind, Except.instMonad]

/-- Witness for C7 on an empty register file and register 7. -/
theorem register_absence_witness :
    Machine.get File.empty 7 = Except.error (ExecutionError.NoSuchRegister 7) ∧
    Machine.get (File.insert File.empty 7 0) 7 = Except.ok 0 :=
  ⟨register_absence.1 File.empty 7 rfl, register_absence.2.1 File.empty 7⟩

/-- C3: both ADD forms store the operand sum modulo 2^32 and succeed
regardless of overflow; a register holding 2^32 - 1 added to 1 wraps
to 0 (shown concretely in the last conjunct). -/
theorem add_wraps :
    (∀ v file pos extra b d x y, v[pos]? = some b → v[pos + 1]? = some d →
      Machine.get file ((b >>> 5) ||| (extra <<< 3)) = Except.ok x →
      Machine.get file (b &&& 0b11111) = Except.ok y →
      Machine.add_reg v file pos extra =
        Except.ok (File.insert file (d >>> 3) ((x + y) % 2 ^ 32), pos + 2)) ∧
    (∀ v file pos extra b w q x, v[pos]? = some b →
      decode_u32 v (pos + 1) = Except.ok (w, q) →
      Machine.get file ((b >>> 5) ||| (extra <<< 3)) = Except.ok x →
      Machine.add_imm v file pos extra =
        Except.ok (File.insert file (b &&& 0b11111) ((x + w) % 2 ^ 32), q)) ∧
    Machine.add_reg [1, 0] (File.insert (File.insert File.empty 0 4294967295) 1 1) 0 0 =
      Except.ok
        (File.insert (File.insert (File.insert File.empty 0 4294967295) 1 1) 0 0, 2) := by
  refine ⟨fun v file pos extra b d x y hb hd hx hy => ?_,
    fun v file pos extra b w q x hb hw hx => ?_, ?_⟩
  · simp [Machine.add_reg, must_next, hb, hd, hx, hy, Except.bind, Except.instMonad]
  · simp [Machine.add_imm, must_next, hb, hw, hx, Except.bind, Except.instMonad]
  · rfl

/-- Witness for C3: the wrapping register-register ADD applied at the
concrete bytes and file of the last conjunct, via the theorem. -/
theorem add_wraps_witness :
    Machine.add_reg [1, 0] (File.insert (File.insert File.empty 0 4294967295) 1 1) 0 0 =
      Except.ok
        (File.insert (File.insert (File.insert File.empty 0 4294967295) 1 1) 0
          ((4294967295 + 1) % 2 ^ 32), 2) :=
  add_wraps.1 [1, 0] (File.insert (File.insert File.empty 0 4294967295) 1 1) 0 0 1 0
    4294967295 1 rfl rfl rfl rfl

/-- C8: a run that reaches HALT yields the value then in register 0,
and fails with no-result when register 0 was never written; the
concrete program of the spec halts with 42 and `[1, HALT]` fails. -/
theorem halt_result_correct :
    (∀ v fuel file w, Machine.execute_bytes v fuel = some (Except.ok file) →
      File.get file 0 = some w → execute_bytes v fuel = some (Except.ok w)) ∧
    (∀ v fuel file, Machine.execute_bytes v fuel = some (Except.ok file) →
      File.get file 0 = none →
      execute_bytes v fuel = some (Except.error ExecutionError.NoResult)) ∧
    execute_bytes [1, 4, 0, 0, 0, 0, 42, 8] 2 = some (Except.ok 42) ∧
    execute_bytes [1, 8] 1 = some (Except.error ExecutionError.NoResult) := by
  refine ⟨fun v fuel file w hm hr => ?_, fun v fuel file hm hr => ?_, by rfl, by rfl⟩
  · simp [execute_bytes, hm, Machine.get, hr]
  · simp [execute_bytes, hm, Machine.get, hr]

/-- Witness for C8: the MOVE-imm/HALT program run through the general
halting clause of the theorem. -/
theorem halt_result_correct_witness :
    execute_bytes [1, 4, 0, 0, 0, 0, 42, 8] 2 = some (Except.ok 42) :=
  halt_result_correct.1 [1, 4, 0, 0, 0, 0, 42, 8] 2 (File.insert File.empty 0 42) 42
    rfl rfl

/-- C5: in MOVE reg-to-reg and register-form ADD the 5-bit source id is
the descriptor's low 2 bits shifted left by 3, or-ed with the operand
byte's top 3 bits (and is indeed below 32 for byte inputs); in
register-register ADD the destination is the third byte's top 5 bits,
its low 3 bits silently discarded. -/
theorem register_id_packing :
    (∀ b0 b1, b1 < 256 → ((b0 &&& 0b11) <<< 3) ||| (b1 >>> 5) < 32) ∧
    (∀ v file pos b0 b1 w, v[pos]? = some b1 →
      Machine.get file (((b0 &&& 0b11) <<< 3) ||| (b1 >>> 5)) = Except.ok w →
      Machine.mov_reg v file pos (b0 &&& 0b11) =
        Except.ok (File.insert file (b1 &&& 0b11111) w, pos + 1)) ∧
    (∀ v file pos b0 b1 d x y, v[pos]? = some b1 → v[pos + 1]? = some d →
      Machine.get file (((b0 &&& 0b11) <<< 3) ||| (b1 >>> 5)) = Except.ok x →
      Machine.get file (b1 &&& 0b11111) = Except.ok y →
      Machine.add_reg v file pos (b0 &&& 0b11) =
        Except.ok (File.insert file (d >>> 3) ((x + y) % 2 ^ 32), pos + 2)) ∧
    (∀ v1 v2 file pos extra b d1 d2,
      v1[pos]? = some b → v2[pos]? = some b →
      v1[pos + 1]? = some d1 → v2[pos + 1]? = some d2 →
      d1 >>> 3 = d2 >>> 3 →
      Machine.add_reg v1 file pos extra = Machine.add_reg v2 file pos extra) := by
  refine ⟨fun b0 b1 hb1 => ?_, fun v file pos b0 b1 w hb hx => ?_,
    fun v file pos b0 b1 d x y hb hd hx hy => ?_,
    fun v1 v2 file pos extra b d1 d2 hb1 hb2 hd1 hd2 hdd => ?_⟩
  · have h1 : (b0 &&& 0b11) <<< 3 < 32 := by
      have := Nat.and_le_right (n := b0) (m := 0b11)
      rw [Nat.shiftLeft_eq]
      omega
    have h2 : b1 >>> 5 < 32 := by
      rw [Nat.shiftRight_eq_div_pow]
      omega
    have h32 : (32 : Nat) = 2 ^ 5 := by norm_num
    rw [h32] at h1 h2 ⊢
    exact Nat.or_lt_two_pow h1 h2
  · rw [Nat.lor_comm] at hx
    simp [Machine.mov_reg, must_next, hb, hx, Except.bind, Except.instMonad]
  · rw [Nat.lor_comm] at hx
    simp [Machine.add_reg, must_next, hb, hd, hx, hy, Except.bind, Except.instMonad]
  · simp only [Machine.add_reg, must_next, hb1, hb2, hd1, hd2, hdd, Except.bind,
      Except.instMonad]

/-- Witness for C5: the MOVE source id 13 assembled from descriptor low
bits 01 and operand byte 163. -/
theorem register_id_packing_witness :
    Machine.mov_reg [163] (File.insert File.empty 13 9) 0 (1 &&& 0b11) =
      Except.ok (File.insert (File.insert File.empty 13 9) (163 &&& 0b11111) 9, 1) :=
  register_id_packing.2.1 [163] (File.insert File.empty 13 9) 0 1 163 9 rfl rfl

/-- C1: BNZ with a nonzero test value fails with nowhere-to-jump when
the decoded target is not below the buffer length, and otherwise
continues execution with the cursor set to that absolute offset (any
offset below the length, 0 and 1 included); with a zero test value it
advances past the 6-byte instruction. -/
theorem bnz_branch :
    ∀ v fuel file pos b r tv tgt,
      v[pos]? = some b → b >>> SHIFT_OPCODE = OPCODE_BNZ →
      v[pos + 1]? = some r →
      File.get file (r &&& REGISTER_WIDTH) = some tv →
      decode_u32 v (pos + 2) = Except.ok (tgt, pos + 6) →
      ((tv ≠ 0 → v.length ≤ tgt →
        Machine.execLoop v (fuel + 1) file pos =
          some (Except.error (ExecutionError.NowhereToJump tgt))) ∧
       (tv ≠ 0 → tgt < v.length →
        Machine.execLoop v (fuel + 1) file pos = Machine.execLoop v fuel file tgt) ∧
       (tv = 0 →
        Machine.execLoop v (fuel + 1) file pos =
          Machine.execLoop v fuel file (pos + 6))) := by
  intro v fuel file pos b r tv tgt hv hop hr hreg hdec
  have hdec2 : decode_u32 v (pos + 1 + 1) = Except.ok (tgt, pos + 6) := hdec
  refine ⟨fun htv hlen => ?_, fun htv htgt => ?_, fun htv => ?_⟩
  · have hbnz : Machine.bnz v file (pos + 1) = Except.ok (some tgt, pos + 6) := by
      simp [Machine.bnz, must_next, hr, Machine.get, hreg, hdec2, htv,
        Except.bind, Except.instMonad]
    simp [Machine.execLoop, hv, hop, hbnz, hlen, OPCODE_MOVE, OPCODE_HALT, OPCODE_ADD, OPCODE_BNZ]
  · have hbnz : Machine.bnz v file (pos + 1) = Except.ok (some tgt, pos + 6) := by
      simp [Machine.bnz, must_next, hr, Machine.get, hreg, hdec2, htv,
        Except.bind, Except.instMonad]
    simp [Machine.execLoop, hv, hop, hbnz, Nat.not_le.mpr htgt, OPCODE_MOVE, OPCODE_HALT, OPCODE_ADD, OPCODE_BNZ]
  · have hbnz : Machine.bnz v file (pos + 1) = Except.ok (none, pos + 6) := by
      simp [Machine.bnz, must_next, hr, Machine.get, hreg, hdec2, htv,
        Except.bind, Except.instMonad]
    simp [Machine.execLoop, hv, hop, hbnz, OPCODE_MOVE, OPCODE_HALT, OPCODE_ADD, OPCODE_BNZ]

/-- Witness for C1: a taken branch to absolute offset 0, the version
byte, from a BNZ at offset 1 of a 7-byte program. -/
theorem bnz_branch_witness :
    Machine.execLoop [1, 24, 0, 0, 0, 0, 0] 2 (File.insert File.empty 0 5) 1 =
      Machine.execLoop [1, 24, 0, 0, 0, 0, 0] 1 (File.insert File.empty 0 5) 0 :=
  (bnz_branch [1, 24, 0, 0, 0, 0, 0] 1 (File.insert File.empty 0 5) 1 24 0 5 0
    rfl rfl rfl rfl rfl).2.1 (by decide) (by decide)

/-- C4: BNZ always decodes its 4-byte jump target, even with a zero
test value: when fewer than 4 bytes remain after the register byte the
run fails with truncated-word instead of falling through. -/
theorem bnz_eager_decode :
    ∀ v fuel file pos b r,
      v[pos]? = some b → b >>> SHIFT_OPCODE = OPCODE_BNZ →
      v[pos + 1]? = some r →
      File.get file (r &&& REGISTER_WIDTH) = some 0 →
      v.length < pos + 6 →
      Machine.execLoop v (fuel + 1) file pos =
        some (Except.error ExecutionError.TruncatedU32) := by
  intro v fuel file pos b r hv hop hr hreg hlen
  have hdec : decode_u32 v (pos + 1 + 1) = Except.error ExecutionError.TruncatedU32 :=
    decodeBytes_trunc v 4 0 (pos + 1 + 1) (by omega) (by omega)
  have hbnz : Machine.bnz v file (pos + 1) =
      Except.error ExecutionError.TruncatedU32 := by
    simp [Machine.bnz, must_next, hr, Machine.get, hreg, hdec,
      Except.bind, Except.instMonad]
  simp [Machine.execLoop, hv, hop, hbnz, OPCODE_MOVE, OPCODE_HALT, OPCODE_ADD, OPCODE_BNZ]

/-- Witness for C4: a 5-byte program whose BNZ at offset 1 tests a
zero-valued register yet fails with truncated-word. -/
theorem bnz_eager_decode_witness :
    Machine.execLoop [1, 24, 0, 0, 0] 1 (File.insert File.empty 0 0) 1 =
      some (Except.error ExecutionError.TruncatedU32) :=
  bnz_eager_decode [1, 24, 0, 0, 0] 0 (File.insert File.empty 0 0) 1 24 0
    rfl rfl rfl rfl (by decide)

/-- C9: the opcode is the descriptor byte's top 5 bits; value 0
dispatches to MOVE (register or immediate form by the flag bit), 1
halts, 2 dispatches to ADD, 3 to BNZ, and any value of 4 or more fails
with no-such-instruction carrying that 5-bit value. -/
theorem opcode_dispatch :
    ∀ v fuel file pos b, v[pos]? = some b →
      ((b >>> SHIFT_OPCODE = OPCODE_HALT →
        Machine.execLoop v (fuel + 1) file pos = some (Except.ok file)) ∧
       (b >>> SHIFT_OPCODE = OPCODE_MOVE → b &&& 0b100 = 0 → ∀ fp,
        Machine.mov_reg v file (pos + 1) (b &&& 0b11) = Except.ok fp →
        Machine.execLoop v (fuel + 1) file pos = Machine.execLoop v fuel fp.1 fp.2) ∧
       (b >>> SHIFT_OPCODE = OPCODE_MOVE → b &&& 0b100 ≠ 0 → ∀ fp,
        Machine.mov_imm v file (pos + 1) = Except.ok fp →
        Machine.execLoop v (fuel + 1) file pos = Machine.execLoop v fuel fp.1 fp.2) ∧
       (b >>> SHIFT_OPCODE = OPCODE_ADD → b &&& 0b100 = 0 → ∀ fp,
        Machine.add_reg v file (pos + 1) (b &&& 0b11) = Except.ok fp →
        Machine.execLoop v (fuel + 1) file pos = Machine.execLoop v fuel fp.1 fp.2) ∧
       (b >>> SHIFT_OPCODE = OPCODE_ADD → b &&& 0b100 ≠ 0 → ∀ fp,
        Machine.add_imm v file (pos + 1) (b &&& 0b11) = Except.ok fp →
        Machine.execLoop v (fuel + 1) file pos = Machine.execLoop v fuel fp.1 fp.2) ∧
       (b >>> SHIFT_OPCODE = OPCODE_BNZ → ∀ e,
        Machine.bnz v file (pos + 1) = Except.error e →
        Machine.execLoop v (fuel + 1) file pos = some (Except.error e)) ∧
       (4 ≤ b >>> SHIFT_OPCODE →
        Machine.execLoop v (fuel + 1) file pos =
          some (Except.error (ExecutionError.NoSuchInstruction (b >>> SHIFT_OPCODE))))) := by
  intro v fuel file pos b hv
  refine ⟨fun hop => ?_, fun hop hflag fp hfp => ?_, fun hop hflag fp hfp => ?_,
    fun hop hflag fp hfp => ?_, fun hop hflag fp hfp => ?_, fun hop e he => ?_,
    fun hop => ?_⟩
  · simp [Machine.execLoop, hv, hop, OPCODE_MOVE, OPCODE_HALT]
  · simp [Machine.execLoop, hv, hop, hflag, hfp, OPCODE_MOVE]
  · simp [Machine.execLoop, hv, hop, hflag, hfp, OPCODE_MOVE]
  · simp [Machine.execLoop, hv, hop, hflag, hfp, OPCODE_MOVE, OPCODE_HALT, OPCODE_ADD]
  · simp [Machine.execLoop, hv, hop, hflag, hfp, OPCODE_MOVE, OPCODE_HALT, OPCODE_ADD]
  · simp [Machine.execLoop, hv, hop, he, OPCODE_MOVE, OPCODE_HALT, OPCODE_ADD,
      OPCODE_BNZ]
  · have hne0 : ¬(b >>> SHIFT_OPCODE = OPCODE_MOVE) := by simp [OPCODE_MOVE]; omega
    have hne1 : ¬(b >>> SHIFT_OPCODE = OPCODE_HALT) := by simp [OPCODE_HALT]; omega
    have hne2 : ¬(b >>> SHIFT_OPCODE = OPCODE_ADD) := by simp [OPCODE_ADD]; omega
    have hne3 : ¬(b >>> SHIFT_OPCODE = OPCODE_BNZ) := by simp [OPCODE_BNZ]; omega
    simp [Machine.execLoop, hv, hne0, hne1, hne2, hne3]

/-- Witness for C9: descriptor byte 32 (top 5 bits 4) fails with
no-such-instruction 4, and descriptor byte 8 (top 5 bits 1) halts. -/
theorem opcode_dispatch_witness :
    Machine.execLoop [1, 32] 1 File.empty 1 =
      some (Except.error (ExecutionError.NoSuchInstruction (32 >>> SHIFT_OPCODE))) ∧
    Machine.execLoop [1, 8] 1 File.empty 1 = some (Except.ok File.empty) :=
  ⟨(opcode_dispatch [1, 32] 0 File.empty 1 32 rfl).2.2.2.2.2.2 (by decide),
   (opcode_dispatch [1, 8] 0 File.empty 1 8 rfl).1 (by decide)⟩

/-- Fuel monotonicity of the dispatch loop: a run that finishes within
some fuel finishes with the same outcome under any additional fuel. -/
theorem execLoop_mono (v : List Nat) :
    ∀ fuel k file pos r, Machine.execLoop v fuel file pos = some r →
      Machine.execLoop v (fuel + k) file pos = some r := by
  intro fuel
  induction fuel with
  | zero =>
    intro k file pos r h
    simp [Machine.execLoop] at h
  | succ fuel ih =>
    intro k file pos r h
    have hadd : fuel + 1 + k = (fuel + k) + 1 := by omega
    rw [hadd]
    rw [Machine.execLoop] at h ⊢
    cases hv : v[pos]? with
    | none => simp only [hv] at h ⊢; exact h
    | some b =>
      simp only [hv] at h ⊢
      by_cases h0 : b >>> SHIFT_OPCODE = OPCODE_MOVE
      · rw [if_pos h0] at h ⊢
        by_cases hf : b &&& 0b100 = 0
        · rw [if_pos hf] at h ⊢
          cases hmr : Machine.mov_reg v file (pos + 1) (b &&& 0b11) with
          | error e => simp only [hmr] at h ⊢; exact h
          | ok fp => simp only [hmr] at h ⊢; exact ih k fp.1 fp.2 r h
        · rw [if_neg hf] at h ⊢
          cases hmr : Machine.mov_imm v file (pos + 1) with
          | error e => simp only [hmr] at h ⊢; exact h
          | ok fp => simp only [hmr] at h ⊢; exact ih k fp.1 fp.2 r h
      · rw [if_neg h0] at h ⊢
        by_cases h1 : b >>> SHIFT_OPCODE = OPCODE_HALT
        · rw [if_pos h1] at h ⊢; exact h
        · rw [if_neg h1] at h ⊢
          by_cases h2 : b >>> SHIFT_OPCODE = OPCODE_ADD
          · rw [if_pos h2] at h ⊢
            by_cases hf : b &&& 0b100 = 0
            · rw [if_pos hf] at h ⊢
              cases hmr : Machine.add_reg v file (pos + 1) (b &&& 0b11) with
              | error e => simp only [hmr] at h ⊢; exact h
              | ok fp => simp only [hmr] at h ⊢; exact ih k fp.1 fp.2 r h
            · rw [if_neg hf] at h ⊢
              cases hmr : Machine.add_imm v file (pos + 1) (b &&& 0b11) with
              | error e => simp only [hmr] at h ⊢; exact h
              | ok fp => simp only [hmr] at h ⊢; exact ih k fp.1 fp.2 r h
          · rw [if_neg h2] at h ⊢
            by_cases h3 : b >>> SHIFT_OPCODE = OPCODE_BNZ
            · rw [if_pos h3] at h ⊢
              cases hb : Machine.bnz v file (pos + 1) with
              | error e => simp only [hb] at h ⊢; exact h
              | ok op =>
                simp only [hb] at h ⊢
                cases hop1 : op.1 with
                | none => simp only [hop1] at h ⊢; exact ih k file op.2 r h
                | some w =>
                  simp only [hop1] at h ⊢
                  by_cases hlen : v.length ≤ w
                  · rw [if_pos hlen] at h ⊢; exact h
                  · rw [if_neg hlen] at h ⊢; exact ih k file w r h
            · rw [if_neg h3] at h ⊢; exact h

/-- Fuel monotonicity of the machine run, version gate included. -/
theorem machine_execute_bytes_mono (v : List Nat) (fuel k : Nat)
    (r : Except ExecutionError File)
    (h : Machine.execute_bytes v fuel = some r) :
    Machine.execute_bytes v (fuel + k) = some r := by
  rw [Machine.execute_bytes] at h ⊢
  cases hv : v[0]? with
  | none => simp only [hv] at h ⊢; exact h
  | some b =>
    simp only [hv] at h ⊢
    by_cases hb : b ≠ BYTE_VERSION
    · rw [if_pos hb] at h ⊢; exact h
    · rw [if_neg hb] at h ⊢
      exact execLoop_mono v fuel k File.empty 1 r h

/-- Fuel monotonicity of the top-level run. -/
theorem execute_bytes_mono (v : List Nat) (fuel k : Nat)
    (r : Except ExecutionError Nat) (h : execute_bytes v fuel = some r) :
    execute_bytes v (fuel + k) = some r := by
  rw [execute_bytes] at h ⊢
  cases hM : Machine.execute_bytes v fuel with
  | none =>
    simp only [hM] at h
    exact Option.noConfusion h
  | some res =>
    simp only [hM] at h
    simp only [machine_execute_bytes_mono v fuel k res hM]
    exact h

/-- C10: execution is deterministic: whenever two runs of
`execute_bytes` on the same byte vector terminate (under any fuel),
their outcomes — result word or error with payload — coincide, since a
run depends only on the bytes and the fresh empty register file. -/
theorem execute_bytes_deterministic :
    ∀ v f1 f2 r1 r2, execute_bytes v f1 = some r1 → execute_bytes v f2 = some r2 →
      r1 = r2 := by
  intro v f1 f2 r1 r2 h1 h2
  rcases Nat.le_total f1 f2 with hle | hle
  · obtain ⟨k, hk⟩ := Nat.le.dest hle
    subst hk
    have := execute_bytes_mono v f1 k r1 h1
    rw [this] at h2
    exact Option.some.inj h2
  · obtain ⟨k, hk⟩ := Nat.le.dest hle
    subst hk
    have := execute_bytes_mono v f2 k r2 h2
    rw [this] at h1
    exact (Option.some.inj h1).symm

/-- Witness for C10: two runs of the no-result program with different
fuels agree. -/
theorem execute_bytes_deterministic_witness :
    execute_bytes [1, 8] 1 = some (Except.error ExecutionError.NoResult) ∧
    execute_bytes [1, 8] 2 = some (Except.error ExecutionError.NoResult) ∧
    (Except.error ExecutionError.NoResult : Except ExecutionError Nat) =
      Except.error ExecutionError.NoResult :=
  ⟨rfl, rfl, execute_bytes_deterministic [1, 8] 1 2 _ _ rfl rfl⟩
